import Mathlib

/-!
Verification development for the AngularJS-to-React migration backend.

The Python sources under scrutiny are shallowly embedded below:

* `src/utils/migration_data_cleaner.py` (`clean_migration_data` / `clean_node`)
* `src/services/project_analyser.py` (`AngularProjectAnalyzer`)
* `src/services/target_structure_generator.py` (`ReactMigrationStructureGenerator`)
* `src/services/react_generator.py` (`ReactComponentGenerator`)
* `src/services/db_service.py` (`MigrationDBService`)
* `src/services/quick_convert_service.py` (`CodeConverter`)

Python dictionaries are modelled as insertion-ordered association lists
(`VDict`); Python dict equality is coarser than structural equality of the
model, so every structural equality proved here implies the corresponding
Python `==`.  External boundaries (the language-model client, the `re`
pattern matcher, `json.loads`/`json.dumps`, the filesystem and the SQL
session) are modelled as explicit parameters, so each theorem quantifies
over their behaviour unless a counterexample pins them to a concrete,
hand-checked instance.
-/

/-! ## Python string primitives -/

/-- Whitespace characters removed by Python `str.strip()` (ASCII fragment;
the sources only ever strip ASCII text). -/
def pyIsSpace (c : Char) : Bool :=
  c == ' ' || c == Char.ofNat 9 || c == Char.ofNat 10 || c == Char.ofNat 13 ||
  c == Char.ofNat 11 || c == Char.ofNat 12

/-- Python `str.strip()` with no arguments. -/
def pyStrip (s : String) : String :=
  String.mk ((s.data.dropWhile pyIsSpace).reverse.dropWhile pyIsSpace).reverse

/-- Whether `pre` is a prefix of `l`. -/
def listIsPrefixOf : List Char → List Char → Bool
  | [], _ => true
  | _ :: _, [] => false
  | a :: xs, b :: ys => a == b && listIsPrefixOf xs ys

/-- Whether `needle` occurs as a contiguous run inside `hay`. -/
def listInfixOf (needle hay : List Char) : Bool :=
  match hay with
  | [] => listIsPrefixOf needle []
  | _ :: t => listIsPrefixOf needle hay || listInfixOf needle t

/-- Python `needle in hay` for strings (substring containment). -/
def pyIn (needle hay : String) : Bool :=
  listInfixOf needle.data hay.data

/-- Python `s.startswith(pre)`. -/
def pyStartsWith (s pre : String) : Bool :=
  listIsPrefixOf pre.data s.data

/-- Python `s.endswith(suf)`. -/
def pyEndsWith (s suf : String) : Bool :=
  listIsPrefixOf suf.data.reverse s.data.reverse

/-- Python `s.lower()` (ASCII; the sources only lowercase ASCII text). -/
def pyLower (s : String) : String :=
  String.mk (s.data.map Char.toLower)

/-- Worker for `pySplit`, with a fuel bound the wrapper instantiates with
the input length plus one (sufficient: every step consumes input or
finishes). -/
def pySplitAux (sep : List Char) : Nat → List Char → List Char → List String
  | 0, cur, _ => [String.mk cur.reverse]
  | fuel + 1, cur, l =>
    if !sep.isEmpty && listIsPrefixOf sep l then
      String.mk cur.reverse :: pySplitAux sep fuel [] (l.drop sep.length)
    else
      match l with
      | [] => [String.mk cur.reverse]
      | c :: rest => pySplitAux sep fuel (c :: cur) rest

/-- Python `s.split(sep)` for a non-empty separator: the parts between
non-overlapping leftmost occurrences of the separator. -/
def pySplit (s sep : String) : List String :=
  pySplitAux sep.data (s.data.length + 1) [] s.data

/-- Worker for `pyReplace`, with the same fuel convention as `pySplitAux`. -/
def pyReplaceAux (old new : List Char) : Nat → List Char → List Char
  | 0, l => l
  | fuel + 1, l =>
    if !old.isEmpty && listIsPrefixOf old l then
      new ++ pyReplaceAux old new fuel (l.drop old.length)
    else
      match l with
      | [] => []
      | c :: rest => c :: pyReplaceAux old new fuel rest

/-- Python `s.replace(old, new)` for a non-empty `old`: replace every
non-overlapping leftmost occurrence. -/
def pyReplace (s old new : String) : String :=
  String.mk (pyReplaceAux old.data new.data (s.data.length + 1) s.data)

/-- Python `sep.join(parts)`. -/
def joinWith (sep : String) : List String → String
  | [] => ""
  | [x] => x
  | x :: y :: rest => x ++ sep ++ joinWith sep (y :: rest)

/-- Element of a list at an index with a default, standing in for Python
indexing that the sources only perform after guarding that the index exists. -/
def listAtD (l : List String) (i : Nat) (d : String) : String :=
  l.getD i d

/-- Path segments of a `/`-separated path string. -/
def pathSegments (p : String) : List String :=
  pySplit p ("/")

/-- Final path component, as `pathlib.PurePath.name` for the paths used here. -/
def pathNameOf (p : String) : String :=
  (pathSegments p).getLastD ("")

/-- Index of the last occurrence of `c` in `l`, if any. -/
def lastIdxOf (c : Char) (l : List Char) : Option Nat :=
  match l with
  | [] => none
  | a :: t =>
    match lastIdxOf c t with
    | some i => some (i + 1)
    | none => if a == c then some 0 else none

/-- Python `pathlib.PurePath.suffix`: the final extension of the last path
component, empty unless the last dot is strictly inside the name. -/
def pySuffix (p : String) : String :=
  let name := pathNameOf p
  match lastIdxOf ('.') name.data with
  | none => ""
  | some i =>
    if 0 < i && i + 1 < name.data.length then String.mk (name.data.drop i) else ""

/-- Python `pathlib.PurePath.stem`: the final path component without its
`pySuffix`. -/
def pathStem (p : String) : String :=
  let name := pathNameOf p
  let suf := pySuffix p
  String.mk (name.data.take (name.data.length - suf.data.length))

/-- Python `os.path.dirname` for `/`-separated paths: everything before the
last separator, empty when there is none. -/
def pyDirname (p : String) : String :=
  match lastIdxOf ('/') p.data with
  | none => ""
  | some i => String.mk (p.data.take i)

/-- Python `os.path.join(a, b)` for the non-absolute `b` values the analyzer
feeds it. -/
def pyPathJoin (a b : String) : String :=
  if a = "" then b
  else if pyEndsWith a ("/") then a ++ b
  else a ++ "/" ++ b

/-- Worker for `pyNormpath`: fold the split path components the way
`posixpath.normpath` does for relative paths. -/
def normpathComps (comps : List String) : List String :=
  comps.foldl
    (fun acc c =>
      if c = "" || c = "." then acc
      else if c = ".." then
        match acc.getLast? with
        | some last => if last = ".." then acc ++ [c] else acc.dropLast
        | none => acc ++ [c]
      else acc ++ [c])
    []

/-- Python `os.path.normpath` restricted to relative `/`-separated paths,
which is the only way the analyzer invokes it. -/
def pyNormpath (p : String) : String :=
  let comps := normpathComps (pySplit p ("/"))
  if comps = [] then "." else joinWith ("/") comps

/-- Quote characters recognised by the analyzer's inner pattern
`[\x27"]([^\x27"]+)[\x27"]`. -/
def isQuoteChar (c : Char) : Bool :=
  c == Char.ofNat 39 || c == Char.ofNat 34

/-- Worker for `findQuoted`, structurally recursive on a fuel bound that the
wrapper instantiates with the list length (always sufficient, since every
recursive call strictly shrinks the list). -/
def findQuotedAux : Nat → List Char → List String
  | 0, _ => []
  | _ + 1, [] => []
  | fuel + 1, c :: rest =>
    if isQuoteChar c then
      match rest.dropWhile (fun x => !isQuoteChar x) with
      | [] => []
      | _ :: rest'' =>
        if (rest.takeWhile (fun x => !isQuoteChar x)).isEmpty then findQuotedAux fuel rest
        else String.mk (rest.takeWhile (fun x => !isQuoteChar x)) :: findQuotedAux fuel rest''
    else findQuotedAux fuel rest

/-- Matches of `re.findall` for the pattern `[\x27"]([^\x27"]+)[\x27"]`:
leftmost non-overlapping runs of non-quote characters between two quotes. -/
def findQuoted (l : List Char) : List String :=
  findQuotedAux l.length l

/-- Insert into a Python `set` modelled as a duplicate-free list that
remembers insertion order. -/
def setAdd (acc : List String) (x : String) : List String :=
  if acc.contains x then acc else acc ++ [x]

/-! ## JSON-like values (Python dicts, lists and scalars) -/

mutual
/-- Shallow model of the Python values the migration pipeline passes around:
JSON scalars, lists and insertion-ordered dictionaries. -/
inductive Val where
  | vnull : Val
  | vbool : Bool → Val
  | vint : Int → Val
  | vstr : String → Val
  | vlist : VList → Val
  | vdict : VDict → Val
/-- Python list of `Val`. -/
inductive VList where
  | nil : VList
  | cons : Val → VList → VList
/-- Python dict of `Val`, as an insertion-ordered association list; real
dictionaries never hold duplicate keys, and none of the embedded code can
introduce one. -/
inductive VDict where
  | nil : VDict
  | cons : String → Val → VDict → VDict
end

mutual
/-- Node count of a value: one per scalar, list or dict, plus the counts of
all children. -/
def count_nodes : Val → Nat
  | .vlist xs => 1 + countNodesL xs
  | .vdict es => 1 + countNodesD es
  | _ => 1
/-- Node count of each element of a list. -/
def countNodesL : VList → Nat
  | .nil => 0
  | .cons v t => count_nodes v + countNodesL t
/-- Node count of each value of a dict. -/
def countNodesD : VDict → Nat
  | .nil => 0
  | .cons _ v t => count_nodes v + countNodesD t
end

/-- Python `k in d` for a dict. -/
def vdictHasKey (d : VDict) (k : String) : Bool :=
  match d with
  | .nil => false
  | .cons k0 _ t => k0 == k || vdictHasKey t k

/-- Python `d.get(k)` / `d[k]`: the value at the key, if present. -/
def vdictGet (d : VDict) (k : String) : Option Val :=
  match d with
  | .nil => none
  | .cons k0 v t => if k0 = k then some v else vdictGet t k

/-- Python `d[k] = v`: replace in place when the key exists, append
otherwise. -/
def vdictSet (d : VDict) (k : String) (v : Val) : VDict :=
  match d with
  | .nil => .cons k v .nil
  | .cons k0 v0 t => if k0 = k then .cons k0 v t else .cons k0 v0 (vdictSet t k v)

/-- Membership of a key/value pair in a dict. -/
inductive VDict.Mem (k : String) (v : Val) : VDict → Prop where
  | head (t : VDict) : VDict.Mem k v (.cons k v t)
  | tail (k0 : String) (v0 : Val) (t : VDict) : VDict.Mem k v t → VDict.Mem k v (.cons k0 v0 t)

/-- Python truthiness of a value. -/
def pyTruthy : Val → Bool
  | .vnull => false
  | .vbool b => b
  | .vint n => n != 0
  | .vstr s => s != ""
  | .vlist .nil => false
  | .vlist (.cons _ _) => true
  | .vdict .nil => false
  | .vdict (.cons _ _ _) => true

/-- Length of a model list. -/
def vlistLength : VList → Nat
  | .nil => 0
  | .cons _ t => 1 + vlistLength t

/-- Length of a model dict. -/
def vdictLength : VDict → Nat
  | .nil => 0
  | .cons _ _ t => 1 + vdictLength t

/-- Python `len(v)`, defined exactly for strings, lists and dicts; `none`
models the `TypeError` raised elsewhere. -/
def pyLen : Val → Option Nat
  | .vstr s => some s.length
  | .vlist l => some (vlistLength l)
  | .vdict d => some (vdictLength d)
  | _ => none

/-- Python `v == s` between an arbitrary value and a string literal. -/
def valEqStr (v : Val) (s : String) : Bool :=
  match v with
  | .vstr t => t == s
  | _ => false

/-! ## migration_data_cleaner.clean_migration_data -/

/-- Keys whose dictionary values `clean_node` treats as folders and recurses
into (`folder_allowed_keys` in the source; the source additionally allows the
key `files`). -/
def folder_allowed_keys : List String :=
  ["public", "src", "components", "services", "directives", "styles"]

/-- The file-entry test of `clean_node`:
`any(k in value for k in [file_name, file_type, relative_path])`. -/
def isFileEntryDict (d : VDict) : Bool :=
  vdictHasKey d ("file_name") || vdictHasKey d ("file_type") ||
  vdictHasKey d ("relative_path")

mutual
/-- The `clean_node` helper of `clean_migration_data`
(`src/utils/migration_data_cleaner.py`): non-dict values are returned as
they are; dict values are rebuilt entry by entry. -/
def clean_node : Val → Val
  | .vdict es => .vdict (cleanEntries es)
  | v => v
/-- Entry-by-entry body of `clean_node`'s `for key, value in node.items()`
loop: file-entry dict values are kept whole, allow-listed folder values are
cleaned recursively, any other dict value is dropped, non-dict values are
kept. -/
def cleanEntries : VDict → VDict
  | .nil => .nil
  | .cons k v t =>
    match v with
    | .vdict d =>
      if isFileEntryDict d then .cons k (.vdict d) (cleanEntries t)
      else if folder_allowed_keys.contains k || k == "files" then
        .cons k (clean_node (.vdict d)) (cleanEntries t)
      else cleanEntries t
    | _ => .cons k v (cleanEntries t)
end

/-- Top-level `clean_migration_data(data)`. -/
def clean_migration_data (data : Val) : Val :=
  clean_node data

/-! ## project_analyser._gather_files -/

/-- Extension allow-list of `AngularProjectAnalyzer.file_extensions`. -/
def file_extensions : List String :=
  [".js", ".html", ".css", ".json", ".md"]

/-- Deny-list of `_gather_files`: `node_modules`, `dist`, `build`, `.git`. -/
def deny_list : List String :=
  ["node_modules", "dist", "build", ".git"]

/-- The exclusion test of `_gather_files`:
`any(part in str(file_path) for part in [...])` — substring containment over
the whole path string, not segment equality. -/
def gatherExcluded (p : String) : Bool :=
  deny_list.any (fun part => pyIn part p)

/-- The `_gather_files` walk of `AngularProjectAnalyzer`, over the list of
file paths the filesystem glob yields (the glob and `is_file` check are the
filesystem boundary): keep files with an allow-listed suffix whose full path
string contains no deny-list substring. -/
def gather_files (paths : List String) : List String :=
  paths.filter (fun p => file_extensions.contains (pySuffix p) && !gatherExcluded p)

/-- The exclusion rule as the claim words it: some path segment equals a
deny-list entry.  Stated only for comparison with `gatherExcluded`. -/
def segmentExcludedSpec (p : String) : Bool :=
  deny_list.any (fun part => (pathSegments p).contains part)

/-! ## react_generator source-content resolution -/

/-- The slice of an analysis-store record that
`ReactComponentGenerator._generate_component_file` reads: the optional
`content` key and the `description` read with a `""` default. -/
structure RFileInfo where
  content : Option String
  description : Option String
deriving DecidableEq

/-- One element of the `source_contents` list built by
`_generate_component_file`. -/
structure RSourceEntry where
  path : String
  content : String
  description : String
deriving DecidableEq

/-- First record stored under a key in the analysis mapping (Python dict
lookup; keys are unique in a real dict). -/
def analysisFind (analysis : List (String × RFileInfo)) (k : String) : Option RFileInfo :=
  (analysis.find? (fun e => e.fst == k)).map (fun e => e.snd)

/-- The source-content resolution loop of `_generate_component_file`
(`src/services/react_generator.py`, lines 181-190): for each candidate in
`source_files` order, keep it only on an exact key match carrying a
`content` field. -/
def source_contents (source_files : List String) (analysis : List (String × RFileInfo)) :
    List RSourceEntry :=
  match source_files with
  | [] => []
  | sp :: rest =>
    match analysisFind analysis sp with
    | some fi =>
      match fi.content with
      | some c =>
        { path := sp, content := c, description := fi.description.getD "" } ::
          source_contents rest analysis
      | none => source_contents rest analysis
    | none => source_contents rest analysis

/-- Resolution of one candidate as the claim words it: (a) exact key match,
(b) first key containing the candidate as a substring, (c) first key whose
final path segment equals the candidate's file name.  Stated only for
comparison with `source_contents`. -/
def specResolveCandidate (analysis : List (String × RFileInfo)) (sp : String) :
    Option (String × RFileInfo) :=
  match analysis.find? (fun e => e.fst == sp) with
  | some e => some e
  | none =>
    match analysis.find? (fun e => pyIn sp e.fst) with
    | some e => some e
    | none => analysis.find? (fun e => pathNameOf e.fst == pathNameOf sp)

/-- Source-content resolution as the claim words it, candidate by candidate. -/
def specSourceContents (source_files : List String) (analysis : List (String × RFileInfo)) :
    List RSourceEntry :=
  match source_files with
  | [] => []
  | sp :: rest =>
    match specResolveCandidate analysis sp with
    | some e =>
      match e.snd.content with
      | some c =>
        { path := sp, content := c, description := e.snd.description.getD "" } ::
          specSourceContents rest analysis
      | none => specSourceContents rest analysis
    | none => specSourceContents rest analysis

/-! ## project_analyser: records, injections and dependencies -/

/-- Results of the `re.findall` calls the analyzer performs on a file's
content.  The `re` engine is an external library: each field holds the group
captures of the corresponding compiled pattern of
`AngularProjectAnalyzer.patterns`, as a function of the content.  Theorems
quantify over this record; counterexamples instantiate it with hand-checked
match results for concrete content strings. -/
structure ReOracle where
  angular_module : String → List String
  angular_controller : String → List String
  angular_service : String → List String
  angular_directive : String → List String
  angular_component : String → List String
  require_import : String → List String
  import_statement : String → List String
  ng_include : String → List String
  html_script_src : String → List String
  html_link_href : String → List String
  injection : String → List (String × String)

/-- The dict built by `_extract_angular_components`. -/
structure AngularComponents where
  modules : List String
  controllers : List String
  services : List String
  directives : List String
  components : List String
deriving DecidableEq

/-- The `angular_components` slot of a file record: the success branch of
`_extract_file_info` stores the dict built by `_extract_angular_components`,
while the exception branch stores the empty *list* `[]` — a different Python
type. -/
inductive ACValue where
  | asDict : AngularComponents → ACValue
  | asEmptyList : ACValue
deriving DecidableEq

/-- Python `list(set(xs))` where only membership matters downstream (the set
iteration order is unspecified; the embedding keeps first occurrences). -/
def pySetListAux (seen : List String) : List String → List String
  | [] => []
  | x :: t => if seen.contains x then pySetListAux seen t else x :: pySetListAux (x :: seen) t

/-- Python `list(set(xs))`, with the order caveat of `pySetListAux`. -/
def pySetList (xs : List String) : List String :=
  pySetListAux [] xs

/-- The `_extract_angular_components` method: non-`js` files get the empty
component lists, `js` files get the deduplicated pattern captures. -/
def extract_angular_components (pats : ReOracle) (content file_type : String) :
    AngularComponents :=
  if file_type != "js" then ⟨[], [], [], [], []⟩
  else
    { modules := pySetList (pats.angular_module content)
      controllers := pySetList (pats.angular_controller content)
      services := pySetList (pats.angular_service content)
      directives := pySetList (pats.angular_directive content)
      components := pySetList (pats.angular_component content) }

/-- Injection-token names reserved by `_extract_injections`. -/
def reservedInjTokens : List String :=
  ["scope", "rootScope", "window", "document"]

/-- The per-parameter filter of `_extract_injections`: drop empty names,
names starting with the `$` sigil and reserved names. -/
def keepInjParam (param : String) : Bool :=
  param != "" && !pyStartsWith param ("$") && !reservedInjTokens.contains param

/-- The body of `_extract_injections`' loop over one captured group string:
quoted names if any, otherwise comma-split stripped parameter names. -/
def injParamsOfMatch (m : String) : List String :=
  let params := findQuoted m.data
  let params := if params = [] then (pySplit m (",")).map pyStrip else params
  params.filter keepInjParam

/-- The `_extract_injections` method over the two-group captures of the
`injection` pattern: each group that is non-empty contributes its parameter
names; the result is deduplicated like `list(set(...))`. -/
def extract_injections (pats : ReOracle) (content : String) : List String :=
  pySetList
    ((pats.injection content).foldr
      (fun mg acc =>
        (if mg.fst = "" then [] else injParamsOfMatch mg.fst) ++
        (if mg.snd = "" then [] else injParamsOfMatch mg.snd) ++ acc)
      [])

/-- One file record of the analysis mapping, with the fields
`_extract_file_info` writes. -/
structure FileRecord where
  file_name : String
  relative_path : String
  file_type : String
  size_bytes : Option Nat
  content : String
  angular_components : ACValue
  dependencies : List String
  description : String
  error : Option String
deriving DecidableEq

/-- The `_extract_file_info` method, over the path pieces of the file and the
outcome of the `read_text` filesystem boundary (`.error` models the caught
exception; `size` models `stat().st_size`): the exception branch keeps the
file represented with empty content, an error note and — the slip the
dependency pass later trips over — `angular_components` set to a list. -/
def extract_file_info (pats : ReOracle) (name relpath suffix : String)
    (read : Except String String) (size : Nat) : FileRecord :=
  let ftype := String.mk suffix.data.tail
  match read with
  | .ok content =>
    { file_name := name
      relative_path := relpath
      file_type := ftype
      size_bytes := some size
      content := content
      angular_components := .asDict (extract_angular_components pats content ftype)
      dependencies := []
      description := ""
      error := none }
  | .error e =>
    { file_name := name
      relative_path := relpath
      file_type := ftype
      size_bytes := none
      content := ""
      angular_components := .asEmptyList
      dependencies := []
      description := "Error processing file"
      error := some e }

/-- The `_resolve_path` method: append `.js` when no known extension is
present, strip query/fragment, reject URLs and root-relative paths, resolve
`./`/`../` against the referencing file's directory, then look the result up
among the analysis keys, retrying with each known extension. -/
def resolve_path (import0 current_file : String) (all_keys : List String) :
    Option String :=
  let ip :=
    if !([".js", ".html", ".css", ".json"].any (fun e => pyEndsWith import0 e)) then
      import0 ++ ".js"
    else import0
  let ip := listAtD (pySplit ip ("?")) 0 ""
  let ip := listAtD (pySplit ip ("#")) 0 ""
  if pyStartsWith ip ("http://") || pyStartsWith ip ("https://") || pyStartsWith ip ("/") then
    none
  else
    let current_dir := pyDirname current_file
    let full :=
      if pyStartsWith ip ("./") || pyStartsWith ip ("../") then
        pyNormpath (pyPathJoin current_dir ip)
      else ip
    if all_keys.contains full then some full
    else
      match [".js", ".html", ".css", ".json"].find? (fun e => all_keys.contains (full ++ e)) with
      | some e => some (full ++ e)
      | none => none

/-- Inner loop of the injected-dependency scan, for one token: walk every
other file's record and add it when the token appears among its registered
services, directives or components.  Reading `angular_components.get(...)`
on the list stored by the error branch raises `AttributeError`, modelled as
`.error ()`. -/
def injScanFiles (tok fp : String) (lst : List (String × FileRecord))
    (acc : List String) : Except Unit (List String) :=
  match lst with
  | [] => .ok acc
  | (op, oi) :: rest =>
    if op = fp then injScanFiles tok fp rest acc
    else
      match oi.angular_components with
      | .asEmptyList => .error ()
      | .asDict c =>
        let acc' :=
          if c.services.contains tok || c.directives.contains tok ||
              c.components.contains tok then
            setAdd acc op
          else acc
        injScanFiles tok fp rest acc'

/-- Outer loop of the injected-dependency scan, over all extracted tokens. -/
def injLoop (fp : String) (injs : List String) (lst : List (String × FileRecord))
    (acc : List String) : Except Unit (List String) :=
  match injs with
  | [] => .ok acc
  | tok :: rest =>
    match injScanFiles tok fp lst acc with
    | .error e => .error e
    | .ok acc' => injLoop fp rest lst acc'

/-- The `_find_dependencies` method.  The file type is the text after the
last dot of the analysis key; `js` files resolve requires/imports and then
run the injected-token scan (which can raise, hence `Except`); `html` files
resolve script/link/include references; anything else depends on nothing. -/
def find_dependencies (pats : ReOracle) (content file_path : String)
    (all_files : List (String × FileRecord)) : Except Unit (List String) :=
  let file_type := (pySplit file_path (".")).getLastD ""
  if file_type = "js" then
    let reqs := pats.require_import content ++ pats.import_statement content
    let deps0 := reqs.foldl
      (fun acc r =>
        match resolve_path r file_path (all_files.map (fun e => e.fst)) with
        | some p => setAdd acc p
        | none => acc)
      []
    injLoop file_path (extract_injections pats content) all_files deps0
  else if file_type = "html" then
    let srcs := pats.html_script_src content ++ pats.html_link_href content ++
      pats.ng_include content
    .ok (srcs.foldl
      (fun acc r =>
        match resolve_path r file_path (all_files.map (fun e => e.fst)) with
        | some p => setAdd acc p
        | none => acc)
      [])
  else .ok []

/-- Step 3 of `analyze_project`: fill each record's `dependencies` from
`_find_dependencies`; the loop has no exception handler, so a raise aborts
the whole analysis. -/
def annotate_dependencies (pats : ReOracle) (records : List (String × FileRecord)) :
    Except Unit (List (String × FileRecord)) :=
  annotateDepsAux pats records records
where
  /-- Walk the records in order, threading the full mapping for lookups. -/
  annotateDepsAux (pats : ReOracle) (all : List (String × FileRecord)) :
      List (String × FileRecord) → Except Unit (List (String × FileRecord))
    | [] => .ok []
    | (p, r) :: rest =>
      match find_dependencies pats r.content p all with
      | .error e => .error e
      | .ok deps =>
        match annotateDepsAux pats all rest with
        | .error e => .error e
        | .ok rest' => .ok ((p, { r with dependencies := deps }) :: rest')

/-! ## target_structure_generator: structure planning -/

/-- The slice of an analysis record that `ReactMigrationStructureGenerator`
reads; every access in the source goes through `.get` with a default, so
optional text fields are `Option String` and the list field defaults to
`[]`. -/
structure TInfo where
  relative_path : String
  file_name : String
  description : Option String
  routing_info : Option String
  dependencies : List String
deriving DecidableEq

/-- External boundaries of the structure generator: the language-model
client's `predict`, and the `json` standard library's `loads`/`dumps`. -/
structure GenEnv where
  predict : String → String
  jsonLoads : String → Option Val
  jsonDumps : Val → String

/-- Python `str(list_of_strings)` as interpolated into the prompts. -/
def pyReprStrList (l : List String) : String :=
  "[" ++ joinWith (", ") (l.map (fun s => "\x27" ++ s ++ "\x27")) ++ "]"

/-- Conversion from a Lean list into the model's Python list. -/
def listToVList : List Val → VList
  | [] => .nil
  | v :: t => .cons v (listToVList t)

/-- The JSON extraction step shared by `_generate_component_structure`,
`_generate_service_structure` and `_generate_routing_structure`: take the
text after a fenced `json` block opener if present, else after a plain
fence, else the whole reply; either way cut at the next fence. -/
def extractJsonStr (response : String) : String :=
  if pyIn ("```json") response then
    listAtD (pySplit (listAtD (pySplit response ("```json")) 1 "") ("```")) 0 ""
  else if pyIn ("```") response then
    listAtD (pySplit (listAtD (pySplit response ("```")) 1 "") ("```")) 0 ""
  else response

/-- The prompt of `_generate_component_structure`. -/
def componentPrompt (c v : TInfo) : String :=
  "\n            I\x27m migrating an AngularJS application to React. I need to convert an AngularJS controller and view pair to a React component.\n\n" ++
  "            Controller file: " ++ c.relative_path ++ "\n" ++
  "            Controller description: " ++ c.description.getD ("No description available") ++ "\n" ++
  "            Controller routing info: " ++ c.routing_info.getD ("No routing info available") ++ "\n" ++
  "            Controller dependencies: " ++ pyReprStrList c.dependencies ++ "\n\n" ++
  "            View file: " ++ v.relative_path ++ "\n" ++
  "            View description: " ++ v.description.getD ("No description available") ++ "\n" ++
  "            View routing info: " ++ v.routing_info.getD ("No routing info available") ++ "\n            \n" ++
  "            Based on this information, provide a JSON structure describing the appropriate React component for migration:\n            \n" ++
  "            ```json\n            \x7b\n              \"name\": \"ComponentName\", // Suggested React component name (PascalCase)\n              \"type\": \"functional\", // functional or class\n              \"sourceFiles\": [], // List of original Angular files this component replaces\n              \"dependencies\": [], // Recommended React dependencies (useState, useEffect, etc)\n              \"props\": [], // Suggested props the component should accept\n              \"stateItems\": [], // Suggested state items the component should maintain\n              \"description\": \"\", // Brief description of what the component does\n              \"routeInfo\": \x7b\n                \"isRouted\": false, // Whether this should be a routed component\n                \"potentialRoute\": \"\" // Potential route path if applicable\n              \x7d\n            \x7d\n            ```\n            \n" ++
  "            Return ONLY the JSON object without any additional explanation.\n            "

/-- The prompt of `_generate_service_structure`. -/
def servicePrompt (s : TInfo) : String :=
  "\n            I\x27m migrating an AngularJS service to React. Help me determine if this should be a custom hook, context, or regular service.\n\n" ++
  "            Service file: " ++ s.relative_path ++ "\n" ++
  "            Service description: " ++ s.description.getD ("No description available") ++ "\n" ++
  "            Service dependencies: " ++ pyReprStrList s.dependencies ++ "\n            \n" ++
  "            Based on this information, provide a JSON structure describing how to migrate this service:\n            \n" ++
  "            ```json\n            \x7b\n              \"name\": \"serviceName\", // Suggested name (camelCase for hooks, PascalCase for contexts)\n              \"migrationType\": \"hook\", // One of: hook, context, or service\n              \"sourceFiles\": [], // List of original Angular files this replaces\n              \"dependencies\": [], // Required React dependencies\n              \"description\": \"\", // Brief description of what it does\n              \"stateItems\": [], // State managed by this hook/context/service\n              \"methods\": [] // Methods to be exposed\n            \x7d\n            ```\n            \n" ++
  "            Return ONLY the JSON object without any additional explanation.\n            "

/-- The prompt of `_generate_routing_structure`, embedding the serialized
pages. -/
def routingPrompt (pagesDump : String) : String :=
  "\n            I\x27m migrating an AngularJS application to React. Help me generate a routing structure.\n\n" ++
  "            Here are the pages we\x27ve identified:\n            " ++ pagesDump ++ "\n            \n" ++
  "            Based on this information, provide a JSON structure for React Router setup:\n            \n" ++
  "            ```json\n            \x7b\n              \"type\": \"react-router-dom\",\n              \"version\": \"6.x\",\n              \"structure\": \"centralized\", // centralized or distributed\n              \"routes\": [\n                \x7b\n                  \"path\": \"/path\",\n                  \"component\": \"ComponentName\",\n                  \"exact\": true,\n                  \"children\": []\n                \x7d\n              ],\n              \"configuration\": \x7b\n                \"basename\": \"\",\n                \"hashType\": false,\n                \"features\": []\n              \x7d\n            \x7d\n            ```\n            \n" ++
  "            Return ONLY the JSON object without any additional explanation.\n            "

/-- The `_generate_component_structure` method: build the prompt, issue one
inference call, extract and parse the reply, then set `sourceFiles`.  A
parse failure returns `None`; a parsed non-dict raises `TypeError` at the
item assignment, caught by the method's outer handler, which also returns
`None`.  The first component of the result records the prompts of the
inference calls issued (always exactly one). -/
def genComponentStructure (env : GenEnv) (c v : TInfo) : List String × Option Val :=
  let prompt := componentPrompt c v
  let response := env.predict prompt
  let res :=
    match env.jsonLoads (extractJsonStr response) with
    | some (.vdict d) =>
      some (.vdict (vdictSet d ("sourceFiles")
        (.vlist (.cons (.vstr c.relative_path) (.cons (.vstr v.relative_path) .nil)))))
    | some _ => none
    | none => none
  ([prompt], res)

/-- The `_generate_service_structure` method; same shape as the component
variant, with `sourceFiles` set to the single service path. -/
def genServiceStructure (env : GenEnv) (s : TInfo) : List String × Option Val :=
  let prompt := servicePrompt s
  let response := env.predict prompt
  let res :=
    match env.jsonLoads (extractJsonStr response) with
    | some (.vdict d) =>
      some (.vdict (vdictSet d ("sourceFiles") (.vlist (.cons (.vstr s.relative_path) .nil))))
    | some _ => none
    | none => none
  ([prompt], res)

/-- The `_generate_routing_structure` method: one inference call over the
serialized pages; any parsed value is returned, a parse failure yields
`None`. -/
def genRoutingStructure (env : GenEnv) (pages : List Val) : List String × Option Val :=
  let prompt := routingPrompt (env.jsonDumps (.vlist (listToVList pages)))
  let response := env.predict prompt
  ([prompt], env.jsonLoads (extractJsonStr response))

/-- The `_is_likely_page` heuristic over the two records' routing info and
file names. -/
def is_likely_page (c v : TInfo) : Bool :=
  let cr := pyLower (c.routing_info.getD "")
  let vr := pyLower (v.routing_info.getD "")
  if pyIn ("route") cr || pyIn ("state") cr || pyIn ("ui-view") vr ||
      pyIn ("ng-view") vr || !(pyIn ("not involved in routing") cr) then
    true
  else
    let cn := pyLower c.file_name
    let vn := pyLower v.file_name
    ["page", "view", "screen", "dashboard", "home", "login", "detail"].any
      (fun ind => pyIn ind cn || pyIn ind vn)

/-- The `_identify_controller_view_pairs` method: js files that look like
controllers, paired with views found through dependency edges or, failing
that, through naming patterns. -/
def identify_controller_view_pairs (analysis : List (String × TInfo)) :
    List (TInfo × TInfo) :=
  let js_files := analysis.filter (fun e => pyEndsWith e.fst (".js"))
  let html_files := analysis.filter (fun e => pyEndsWith e.fst (".html"))
  js_files.foldl
    (fun pairs jse =>
      let jp := jse.fst
      let ji := jse.snd
      if !(pyIn ("controller") (pyLower jp)) &&
          !(ji.dependencies.any (fun d => pyIn ("controller") (pyLower d))) then
        pairs
      else
        let js_basename := pathStem jp
        let pv := html_files.filter
          (fun he => he.snd.dependencies.contains jp || ji.dependencies.contains he.fst)
        let pv :=
          if pv.isEmpty then
            html_files.filter
              (fun he =>
                let base := pathStem he.fst
                pyIn (pyReplace js_basename ("Controller") ("")) base ||
                pyIn (pyReplace base ("View") ("")) js_basename ||
                pyIn (pyReplace base (".view") ("")) js_basename)
          else pv
        pairs ++ pv.map (fun he => (ji, he.snd)))
    []

/-- The `_identify_services` method: js files whose description or path
mentions a service, factory or provider. -/
def identify_services (analysis : List (String × TInfo)) : List TInfo :=
  analysis.foldl
    (fun acc e =>
      if !(pyEndsWith e.fst (".js")) then acc
      else
        let d := pyLower (e.snd.description.getD "")
        let pl := pyLower e.fst
        if pyIn ("service") d || pyIn ("factory") d || pyIn ("provider") d ||
            pyIn ("service") pl || pyIn ("factory") pl || pyIn ("provider") pl then
          acc ++ [e.snd]
        else acc)
    []

/-- The initial `routing` value of `_init_migration_structure`. -/
def default_routing : Val :=
  .vdict (.cons ("type") (.vstr "react-router-dom") (.cons ("routes") (.vlist .nil) .nil))

/-- The metadata block of `_init_migration_structure` (`generated_at` stands
for the `datetime.now()` boundary). -/
structure MigMetadata where
  generated_at : String
  analysis_file : String
  source_files : List String

/-- The statistics block appended at the end of
`generate_migration_structure`. -/
structure MigStatistics where
  total_components : Nat
  total_pages : Nat
  total_hooks : Nat
  total_services : Nat
  total_contexts : Nat
  total_routes : Nat

/-- The migration structure assembled by `generate_migration_structure`. -/
structure MigrationStructure where
  project_id : String
  components : List Val
  pages : List Val
  hooks : List Val
  services : List Val
  contexts : List Val
  routing : Val
  metadata : MigMetadata
  statistics : MigStatistics

/-- Step 2 of `generate_migration_structure`: walk the controller-view
pairs, one inference call each; skipped items leave the buckets unchanged. -/
def processPairs (env : GenEnv) :
    List (TInfo × TInfo) → List Val → List Val → List String →
      List Val × List Val × List String
  | [], comps, pages, calls => (comps, pages, calls)
  | (c, v) :: rest, comps, pages, calls =>
    let r := genComponentStructure env c v
    let calls := calls ++ r.fst
    match r.snd with
    | none => processPairs env rest comps pages calls
    | some cs =>
      if !pyTruthy cs then processPairs env rest comps pages calls
      else if is_likely_page c v then processPairs env rest comps (pages ++ [cs]) calls
      else processPairs env rest (comps ++ [cs]) pages calls

/-- Step 3 of `generate_migration_structure`: walk the services, one
inference call each; a missing or unexpected `migrationType` is caught by
the per-service handler and skips the item. -/
def processServices (env : GenEnv) :
    List TInfo → List Val → List Val → List Val → List String →
      List Val × List Val × List Val × List String
  | [], hooks, contexts, svcs, calls => (hooks, contexts, svcs, calls)
  | s :: rest, hooks, contexts, svcs, calls =>
    let r := genServiceStructure env s
    let calls := calls ++ r.fst
    match r.snd with
    | none => processServices env rest hooks contexts svcs calls
    | some ss =>
      if !pyTruthy ss then processServices env rest hooks contexts svcs calls
      else
        match ss with
        | .vdict d =>
          match vdictGet d ("migrationType") with
          | none => processServices env rest hooks contexts svcs calls
          | some mv =>
            if valEqStr mv ("hook") then
              processServices env rest (hooks ++ [ss]) contexts svcs calls
            else if valEqStr mv ("context") then
              processServices env rest hooks (contexts ++ [ss]) svcs calls
            else processServices env rest hooks contexts (svcs ++ [ss]) calls
        | _ => processServices env rest hooks contexts svcs calls

/-- The statistics lookup `len(migration_structure["routing"]["routes"])`:
`none` models the `KeyError`/`TypeError` raised when the routing value the
model returned has no usable `routes` entry. -/
def routingRoutesLen (routing : Val) : Option Nat :=
  match routing with
  | .vdict d =>
    match vdictGet d ("routes") with
    | some rv => pyLen rv
    | none => none
  | _ => none

/-- The `generate_migration_structure` orchestration
(`src/services/target_structure_generator.py`, lines 80-165): identify
controller-view pairs, one inference call per pair; identify services, one
inference call per service; one inference call for routing; then save
(filesystem boundary) and append statistics.  The second component of the
result is the list of prompts issued to the inference boundary, in order;
the `Except` layer models the raise propagated when the statistics step
trips over an unusable routing value. -/
def generate_migration_structure (env : GenEnv) (project_id : String)
    (analysis : List (String × TInfo)) (generated_at analysis_file : String) :
    Except Unit MigrationStructure × List String :=
  let pairs := identify_controller_view_pairs analysis
  let pr := processPairs env pairs [] [] []
  let comps := pr.fst
  let pages := pr.snd.fst
  let svcsIn := identify_services analysis
  let sr := processServices env svcsIn [] [] [] pr.snd.snd
  let hooks := sr.fst
  let contexts := sr.snd.fst
  let svcs := sr.snd.snd.fst
  let rr := genRoutingStructure env pages
  let calls := sr.snd.snd.snd ++ rr.fst
  let routing :=
    match rr.snd with
    | some rv => if pyTruthy rv then rv else default_routing
    | none => default_routing
  let meta : MigMetadata :=
    { generated_at := generated_at
      analysis_file := analysis_file
      source_files := analysis.map (fun e => e.fst) }
  match routingRoutesLen routing with
  | none => (.error (), calls)
  | some n =>
    (.ok
      { project_id := project_id
        components := comps
        pages := pages
        hooks := hooks
        services := svcs
        contexts := contexts
        routing := routing
        metadata := meta
        statistics :=
          { total_components := comps.length
            total_pages := pages.length
            total_hooks := hooks.length
            total_services := svcs.length
            total_contexts := contexts.length
            total_routes := n } }, calls)

/-! ## db_service.MigrationDBService -/

/-- A `project_analysis` table row (timestamps are the SQL boundary and are
not modelled). -/
structure AnalysisRow where
  row_project_id : String
  analysis_data : VDict

/-- A `target_structure` table row. -/
structure TargetRow where
  row_project_id : String
  structure_data : VDict
  instructions : String

/-- State of the two tables the service touches. -/
structure MigDB where
  analyses : List AnalysisRow
  structures : List TargetRow

/-- The empty database. -/
def emptyDB : MigDB :=
  { analyses := [], structures := [] }

/-- `db.query(ProjectAnalysis).filter(project_id == pid).first()`. -/
def findAnalysisRow (db : MigDB) (pid : String) : Option AnalysisRow :=
  db.analyses.find? (fun r => r.row_project_id == pid)

/-- `db.query(TargetStructure).filter(project_id == pid).first()`. -/
def findTargetRow (db : MigDB) (pid : String) : Option TargetRow :=
  db.structures.find? (fun r => r.row_project_id == pid)

/-- Replace the first analysis row with the given project id (the ORM update
path). -/
def updateAnalysisRow (pid : String) (adata : VDict) : List AnalysisRow → List AnalysisRow
  | [] => []
  | r :: t =>
    if r.row_project_id = pid then { r with analysis_data := adata } :: t
    else r :: updateAnalysisRow pid adata t

/-- Replace the first target row with the given project id. -/
def updateTargetRow (pid : String) (sdata : VDict) : List TargetRow → List TargetRow
  | [] => []
  | r :: t =>
    if r.row_project_id = pid then { r with structure_data := sdata } :: t
    else r :: updateTargetRow pid sdata t

/-- Python falsiness of a dict (`not d`): emptiness. -/
def vdictIsEmpty : VDict → Bool
  | .nil => true
  | .cons _ _ _ => false

/-- `MigrationDBService.save_analysis`: reject falsy inputs, then update the
existing row or insert a new one. -/
def save_analysis (db : MigDB) (pid : String) (adata : VDict) :
    Option AnalysisRow × MigDB :=
  if pid = "" || vdictIsEmpty adata then (none, db)
  else
    match findAnalysisRow db pid with
    | some _ =>
      let db' := { db with analyses := updateAnalysisRow pid adata db.analyses }
      (some { row_project_id := pid, analysis_data := adata }, db')
    | none =>
      let row : AnalysisRow := { row_project_id := pid, analysis_data := adata }
      (some row, { db with analyses := db.analyses ++ [row] })

/-- `MigrationDBService.save_target_structure`: reject falsy inputs, refuse
to store when no analysis row exists for the project id, then update or
insert. -/
def save_target_structure (db : MigDB) (pid : String) (sdata : VDict)
    (instructions : String) : Option TargetRow × MigDB :=
  if pid = "" || vdictIsEmpty sdata then (none, db)
  else
    match findAnalysisRow db pid with
    | none => (none, db)
    | some _ =>
      match findTargetRow db pid with
      | some _ =>
        let db' := { db with structures := updateTargetRow pid sdata db.structures }
        (some { row_project_id := pid, structure_data := sdata, instructions := instructions },
          db')
      | none =>
        let row : TargetRow :=
          { row_project_id := pid, structure_data := sdata, instructions := instructions }
        (some row, { db with structures := db.structures ++ [row] })

/-- `MigrationDBService.get_analysis` (the timestamp rendering of the
returned dict is the SQL boundary; the row itself is returned). -/
def get_analysis (db : MigDB) (pid : String) : Option AnalysisRow :=
  if pid = "" then none else findAnalysisRow db pid

/-- `MigrationDBService.get_target_structure`. -/
def get_target_structure (db : MigDB) (pid : String) : Option TargetRow :=
  if pid = "" then none else findTargetRow db pid

/-- `MigrationDBService.has_target_structure`. -/
def has_target_structure (db : MigDB) (pid : String) : Bool :=
  if pid = "" then false else (findTargetRow db pid).isSome

/-- Delete the first target row with the given project id, if any. -/
def eraseTargetRow (pid : String) : List TargetRow → List TargetRow
  | [] => []
  | r :: t => if r.row_project_id = pid then t else r :: eraseTargetRow pid t

/-- Delete the first analysis row with the given project id, if any. -/
def eraseAnalysisRow (pid : String) : List AnalysisRow → List AnalysisRow
  | [] => []
  | r :: t => if r.row_project_id = pid then t else r :: eraseAnalysisRow pid t

/-- `MigrationDBService.delete_project_data`: delete the structure row, then
the analysis row. -/
def delete_project_data (db : MigDB) (pid : String) : MigDB :=
  { analyses := eraseAnalysisRow pid db.analyses
    structures := eraseTargetRow pid db.structures }

/-- One call against the service, for the invariant theorem. -/
inductive DBOp where
  | saveA : String → VDict → DBOp
  | saveT : String → VDict → String → DBOp
  | getA : String → DBOp
  | getT : String → DBOp
  | hasT : String → DBOp
  | del : String → DBOp

/-- Database state after one service call (reads leave it unchanged). -/
def dbStep (db : MigDB) : DBOp → MigDB
  | .saveA pid adata => (save_analysis db pid adata).snd
  | .saveT pid sdata instr => (save_target_structure db pid sdata instr).snd
  | .getA _ => db
  | .getT _ => db
  | .hasT _ => db
  | .del pid => delete_project_data db pid

/-- Database state after a sequence of service calls from the empty
database. -/
def dbRun (ops : List DBOp) : MigDB :=
  ops.foldl dbStep emptyDB

/-! ## quick_convert_service.CodeConverter -/

/-- Reply object of the external agent boundary (`agent.run(...)` returns an
object whose `content` the converter passes through). -/
structure AgentReply where
  content : String

/-- `CodeConverter.convert` (`src/services/quick_convert_service.py`, lines
10-20), parameterized by the prompt builder
(`quick_convert_prompts.get_specialized_prompt`, a pure string-template
function whose text never influences this method's control flow — the
theorems below quantify over it, so they hold for the real builder) and by
the external agent.  The result pairs the Python outcome (a raised
`ValueError` or the returned reply content) with the list of prompts sent
to the agent, in order. -/
def convert (get_specialized_prompt : List String → String → String)
    (agent : String → AgentReply) (angular_code : String) (file_types : List String) :
    Except String String × List String :=
  if pyStrip angular_code = "" then (.error ("angular_code field is required"), [])
  else if file_types = [] then (.error ("At least one file type must be selected"), [])
  else
    let prompt := get_specialized_prompt file_types angular_code
    let response := agent prompt
    (.ok response.content, [prompt])

/-! ## Concrete fixtures for counterexamples and witnesses -/

/-- A migration structure holding one nested dict under a key outside the
folder allow-list: `\x7b "weird": \x7b "a": 1 \x7d \x7d`. -/
def cexCleanInput : Val :=
  .vdict (.cons ("weird") (.vdict (.cons ("a") (.vint 1) .nil)) .nil)

/-- Analysis fixture for source resolution: one record keyed
`src/a/Foo.js`. -/
def c2Analysis : List (String × RFileInfo) :=
  [("src/a/Foo.js", { content := some "AX", description := some "descA" })]

/-- Content of the `app.module.js` fixture file. -/
def moduleContent : String :=
  "angular.module(\x27app\x27).service(\x27data\x27, function () \x7b\x7d)"

/-- Content of the `view.html` fixture file: an injection-shaped function
parameter list inside markup. -/
def viewContent : String :=
  "<p>function (data)</p>"

/-- Content of the `consumer.js` fixture file. -/
def consumerContent : String :=
  "function (data)"

/-- Hand-checked `re.findall` results of the analyzer's patterns on the
fixture contents: `.service(\x27data\x27` matches the service-registration
pattern on the module file; `function (data)` matches the second
alternative of the injection pattern (captures `("", "data")`), and
`function ()` captures `("", "")`; every other pattern has no match on
these strings, and every other content (in particular `""`) matches
nothing. -/
def cPats : ReOracle :=
  { angular_module := fun c => if c = moduleContent then ["app"] else []
    angular_controller := fun _ => []
    angular_service := fun c => if c = moduleContent then ["data"] else []
    angular_directive := fun _ => []
    angular_component := fun _ => []
    require_import := fun _ => []
    import_statement := fun _ => []
    ng_include := fun _ => []
    html_script_src := fun _ => []
    html_link_href := fun _ => []
    injection := fun c =>
      if c = moduleContent then [("", "")]
      else if c = viewContent || c = consumerContent then [("", "data")] else [] }

/-- Record for the fixture file `app.module.js`. -/
def recModule : FileRecord :=
  extract_file_info cPats ("app.module.js") ("app.module.js") (".js")
    (.ok moduleContent) moduleContent.length

/-- Record for the fixture file `view.html`. -/
def recView : FileRecord :=
  extract_file_info cPats ("view.html") ("view.html") (".html")
    (.ok viewContent) viewContent.length

/-- Record for the fixture file `consumer.js`. -/
def recConsumer : FileRecord :=
  extract_file_info cPats ("consumer.js") ("consumer.js") (".js")
    (.ok consumerContent) consumerContent.length

/-- Record for the fixture file `broken.js`, whose read raised. -/
def recBroken : FileRecord :=
  extract_file_info cPats ("broken.js") ("broken.js") (".js")
    (.error ("Permission denied")) 0

/-- Two-file fixture analysis: the module defining the `data` service and
the HTML view whose content shows an injection-shaped pattern. -/
def c6Analysis : List (String × FileRecord) :=
  [("app.module.js", recModule), ("view.html", recView)]

/-- Two-file fixture analysis with a `js` consumer of the `data` service. -/
def c6wAnalysis : List (String × FileRecord) :=
  [("app.module.js", recModule), ("consumer.js", recConsumer)]

/-- Fixture record list containing one unreadable file next to a `js` file
with an injected token. -/
def c7Records : List (String × FileRecord) :=
  [("broken.js", recBroken), ("consumer.js", recConsumer)]

/-- Analysis fixture for the structure generator: one controller with a
dependency edge to its view. -/
def c3Analysis : List (String × TInfo) :=
  [("loginController.js",
    { relative_path := "loginController.js", file_name := "loginController.js",
      description := none, routing_info := none, dependencies := ["login.html"] }),
   ("login.html",
    { relative_path := "login.html", file_name := "login.html",
      description := none, routing_info := none, dependencies := [] })]

/-- Inference/JSON boundary whose replies never parse. -/
def envUnparseable : GenEnv :=
  { predict := fun _ => "x", jsonLoads := fun _ => none, jsonDumps := fun _ => "[]" }

/-- A non-empty stored payload for the database fixtures. -/
def sampleDict : VDict :=
  .cons ("k") .vnull .nil

/-- The per-entry decision of `clean_node`'s loop, as a function: `some w`
keeps the entry with value `w`, `none` drops it. -/
def cleanEntryAction (k : String) (v : Val) : Option Val :=
  match v with
  | .vdict d =>
    if isFileEntryDict d then some (.vdict d)
    else if folder_allowed_keys.contains k || k == "files" then
      some (clean_node (.vdict d))
    else none
  | _ => some v

/-! # Theorems -/

/-! ## Cleanup pass: helper lemmas -/

theorem cleanEntries_cons (k : String) (v : Val) (t : VDict) :
    cleanEntries (.cons k v t) =
      match cleanEntryAction k v with
      | some w => .cons k w (cleanEntries t)
      | none => cleanEntries t := by
  cases v with
  | vdict d =>
    by_cases hf : isFileEntryDict d = true
    · simp [cleanEntries, cleanEntryAction, hf]
    · by_cases hk : k ∈ folder_allowed_keys ∨ k = "files"
      · simp [cleanEntries, cleanEntryAction, hf, hk]
      · simp [cleanEntries, cleanEntryAction, hf, hk]
  | vnull => simp [cleanEntries, cleanEntryAction]
  | vbool b => simp [cleanEntries, cleanEntryAction]
  | vint n => simp [cleanEntries, cleanEntryAction]
  | vstr s => simp [cleanEntries, cleanEntryAction]
  | vlist l => simp [cleanEntries, cleanEntryAction]

theorem clean_node_vdict (es : VDict) : clean_node (.vdict es) = .vdict (cleanEntries es) :=
  rfl

mutual
theorem clean_node_idem : ∀ v : Val, clean_node (clean_node v) = clean_node v
  | .vnull => rfl
  | .vbool _ => rfl
  | .vint _ => rfl
  | .vstr _ => rfl
  | .vlist _ => rfl
  | .vdict es => congrArg Val.vdict (cleanEntries_idem es)
theorem cleanEntries_idem : ∀ d : VDict, cleanEntries (cleanEntries d) = cleanEntries d
  | .nil => rfl
  | .cons k v t => by
    rw [cleanEntries_cons]
    cases v with
    | vdict d =>
      by_cases hf : isFileEntryDict d = true
      · simp only [cleanEntryAction, hf, if_true]
        rw [cleanEntries_cons]
        simp only [cleanEntryAction, hf, if_true]
        rw [cleanEntries_idem t]
      · by_cases hk : k ∈ folder_allowed_keys ∨ k = "files"
        · have hkb : (folder_allowed_keys.contains k || k == "files") = true := by
            simp [hk]
          simp only [cleanEntryAction, hf, if_false, hkb, if_true, Bool.false_eq_true,
            clean_node_vdict]
          rw [cleanEntries_cons]
          by_cases hf2 : isFileEntryDict (cleanEntries d) = true
          · simp only [cleanEntryAction, hf2, if_true]
            rw [cleanEntries_idem t]
          · simp only [cleanEntryAction, hf2, hkb, if_true, Bool.false_eq_true, if_false,
              clean_node_vdict]
            rw [cleanEntries_idem t, cleanEntries_idem d]
        · have hkb : (folder_allowed_keys.contains k || k == "files") = false := by
            by_contra hbc
            rw [Bool.not_eq_false, Bool.or_eq_true] at hbc
            apply hk
            rcases hbc with h1 | h2
            · exact Or.inl (by simpa using h1)
            · exact Or.inr (by simpa using h2)
          simp only [cleanEntryAction, hf, hkb, Bool.false_eq_true, if_false]
          rw [cleanEntries_idem t]
    | vnull =>
      simp only [cleanEntryAction]
      rw [cleanEntries_cons]
      simp only [cleanEntryAction]
      rw [cleanEntries_idem t]
    | vbool b =>
      simp only [cleanEntryAction]
      rw [cleanEntries_cons]
      simp only [cleanEntryAction]
      rw [cleanEntries_idem t]
    | vint n =>
      simp only [cleanEntryAction]
      rw [cleanEntries_cons]
      simp only [cleanEntryAction]
      rw [cleanEntries_idem t]
    | vstr s =>
      simp only [cleanEntryAction]
      rw [cleanEntries_cons]
      simp only [cleanEntryAction]
      rw [cleanEntries_idem t]
    | vlist l =>
      simp only [cleanEntryAction]
      rw [cleanEntries_cons]
      simp only [cleanEntryAction]
      rw [cleanEntries_idem t]
end

mutual
theorem count_clean_le : ∀ v : Val, count_nodes (clean_node v) ≤ count_nodes v
  | .vnull => Nat.le_refl _
  | .vbool _ => Nat.le_refl _
  | .vint _ => Nat.le_refl _
  | .vstr _ => Nat.le_refl _
  | .vlist _ => Nat.le_refl _
  | .vdict es => by
    have h := countD_clean_le es
    simp only [clean_node_vdict, count_nodes]
    omega
theorem countD_clean_le : ∀ d : VDict, countNodesD (cleanEntries d) ≤ countNodesD d
  | .nil => Nat.le_refl _
  | .cons k v t => by
    have ht := countD_clean_le t
    have hv := count_clean_le v
    rw [cleanEntries_cons]
    cases v with
    | vdict d =>
      by_cases hf : isFileEntryDict d = true
      · simp only [cleanEntryAction, hf, if_true, countNodesD]
        omega
      · by_cases hk : k ∈ folder_allowed_keys ∨ k = "files"
        · have hkb : (folder_allowed_keys.contains k || k == "files") = true := by
            simp [hk]
          simp only [cleanEntryAction, hf, hkb, if_true, Bool.false_eq_true, if_false,
            countNodesD]
          omega
        · have hkb : (folder_allowed_keys.contains k || k == "files") = false := by
            by_contra hbc
            rw [Bool.not_eq_false, Bool.or_eq_true] at hbc
            apply hk
            rcases hbc with h1 | h2
            · exact Or.inl (by simpa using h1)
            · exact Or.inr (by simpa using h2)
          simp only [cleanEntryAction, hf, hkb, Bool.false_eq_true, if_false, countNodesD]
          omega
    | vnull =>
      simp only [cleanEntryAction, countNodesD]
      omega
    | vbool b =>
      simp only [cleanEntryAction, countNodesD]
      omega
    | vint n =>
      simp only [cleanEntryAction, countNodesD]
      omega
    | vstr s =>
      simp only [cleanEntryAction, countNodesD]
      omega
    | vlist l =>
      simp only [cleanEntryAction, countNodesD]
      omega
end

theorem mem_cleanEntries : ∀ (es : VDict) (k : String) (w : Val),
    VDict.Mem k w (cleanEntries es) ↔
      ∃ v : Val, VDict.Mem k v es ∧ cleanEntryAction k v = some w
  | .nil, k, w => by
    constructor
    · intro h
      cases h
    · rintro ⟨v, hv, _⟩
      cases hv
  | .cons k0 v0 t, k, w => by
    have ih := mem_cleanEntries t k w
    rw [cleanEntries_cons]
    cases hact : cleanEntryAction k0 v0 with
    | none =>
      rw [ih]
      constructor
      · rintro ⟨v, hv, ha⟩
        exact ⟨v, VDict.Mem.tail _ _ _ hv, ha⟩
      · rintro ⟨v, hv, ha⟩
        cases hv with
        | head _ =>
          rw [hact] at ha
          cases ha
        | tail _ _ _ hv' =>
          exact ⟨v, hv', ha⟩
    | some w0 =>
      constructor
      · intro h
        cases h with
        | head _ =>
          exact ⟨v0, VDict.Mem.head _, hact⟩
        | tail _ _ _ h' =>
          obtain ⟨v, hv, ha⟩ := ih.mp h'
          exact ⟨v, VDict.Mem.tail _ _ _ hv, ha⟩
      · rintro ⟨v, hv, ha⟩
        cases hv with
        | head _ =>
          rw [hact] at ha
          injection ha with hw
          rw [hw]
          exact VDict.Mem.head _
        | tail _ _ _ hv' =>
          exact VDict.Mem.tail _ _ _ (ih.mpr ⟨v, hv', ha⟩)

/-! ## Claim C1 and C8 -/

/-- C1 (counterexample): the recursive validation/cleanup pass does drop
nodes.  On the structure `\x7b "weird": \x7b "a": 1 \x7d \x7d` — whose only
top-level entry is a dict value that is neither a file entry nor stored
under an allow-listed folder key — `clean_migration_data` removes the entry
entirely, so the node count is not preserved. -/
theorem claim_C1_counterexample :
    count_nodes (clean_migration_data cexCleanInput) ≠ count_nodes cexCleanInput := by
  have h1 : count_nodes (clean_migration_data cexCleanInput) = 1 := rfl
  have h2 : count_nodes cexCleanInput = 3 := rfl
  rw [h1, h2]
  decide

/-- C1 (amended): the cleanup pass keeps an entry exactly when its value is
a non-dict (kept as is), a file-entry dict (kept whole), or a dict stored
under an allow-listed folder key (cleaned recursively); every other
dict-valued entry is dropped, and consequently the node count never
increases — it is not preserved in general. -/
theorem claim_C1_amended :
    (∀ (es : VDict) (k : String) (w : Val),
        VDict.Mem k w (cleanEntries es) ↔
          ∃ v : Val, VDict.Mem k v es ∧ cleanEntryAction k v = some w) ∧
    ∀ S : Val, count_nodes (clean_migration_data S) ≤ count_nodes S :=
  ⟨mem_cleanEntries, fun S => count_clean_le S⟩

/-- C8: the structure validation/cleanup pass is idempotent — cleaning a
structure twice gives the same (structurally equal, hence Python-equal)
result as cleaning it once. -/
theorem claim_C8_validation_idempotent :
    ∀ S : Val, clean_migration_data (clean_migration_data S) = clean_migration_data S :=
  fun S => clean_node_idem S

/-! ## Claim C5: file discovery -/

theorem listIsPrefixOf_append (n s : List Char) : listIsPrefixOf n (n ++ s) = true := by
  induction n with
  | nil => rfl
  | cons a t ih => simp [listIsPrefixOf, ih]

theorem listInfixOf_append (n pre suf : List Char) :
    listInfixOf n (pre ++ (n ++ suf)) = true := by
  induction pre with
  | nil =>
    cases n with
    | nil =>
      cases suf with
      | nil => rfl
      | cons b t => simp [listInfixOf, listIsPrefixOf]
    | cons a t =>
      simp only [List.nil_append, listInfixOf, Bool.or_eq_true]
      left
      simp [listIsPrefixOf, listIsPrefixOf_append]
  | cons a t ih =>
    simp [listInfixOf]
    right
    exact ih

/-- C5 (counterexample): exclusion is not segment-equality.  The path
`proj/distribution/app.js` has an allow-listed extension and none of its
segments equals a deny-list entry, yet `_gather_files` excludes it, because
`dist` occurs as a substring of the path string. -/
theorem claim_C5_counterexample :
    gather_files ["proj/distribution/app.js"] = [] ∧
    file_extensions.contains (pySuffix ("proj/distribution/app.js")) = true ∧
    segmentExcludedSpec ("proj/distribution/app.js") = false := by
  refine ⟨rfl, rfl, rfl⟩

/-- C5 (amended): a file is kept by discovery iff its suffix is on the
allow-list and no deny-list entry occurs as a substring of its full path
string (not: equals one of its segments); substring exclusion still covers
the entire subtree of a denied directory, since every path through it
contains the deny entry as a substring, as the second conjunct shows for
any decomposition `pre ++ d ++ suf`. -/
theorem claim_C5_amended :
    (∀ (paths : List String) (p : String),
        p ∈ gather_files paths ↔
          p ∈ paths ∧ file_extensions.contains (pySuffix p) = true ∧
            gatherExcluded p = false) ∧
    ∀ (d pre suf : String), pyIn d (pre ++ (d ++ suf)) = true := by
  constructor
  · intro paths p
    unfold gather_files
    rw [List.mem_filter]
    constructor
    · rintro ⟨hmem, hcond⟩
      rw [Bool.and_eq_true] at hcond
      exact ⟨hmem, hcond.1, by
        have := hcond.2
        cases hx : gatherExcluded p
        · rfl
        · rw [hx] at this
          simp at this⟩
    · rintro ⟨hmem, hext, hexc⟩
      refine ⟨hmem, ?_⟩
      rw [Bool.and_eq_true, hext, hexc]
      exact ⟨rfl, rfl⟩
  · intro d pre suf
    unfold pyIn
    have h : (pre ++ (d ++ suf)).data = pre.data ++ (d.data ++ suf.data) := by
      simp [String.data_append]
    rw [h]
    exact listInfixOf_append _ _ _

/-! ## Claim C2: source-content resolution -/

/-- C2 (counterexample): resolution has no substring or file-name tier.  For
the candidate `Foo.js` and an analysis whose only key is `src/a/Foo.js` —
which contains the candidate as a substring and has the same file name —
the code contributes nothing, while the claim's three-tier resolution
returns that record's content. -/
theorem claim_C2_counterexample :
    source_contents ["Foo.js"] c2Analysis = [] ∧
    pyIn ("Foo.js") ("src/a/Foo.js") = true ∧
    specSourceContents ["Foo.js"] c2Analysis =
      [{ path := "Foo.js", content := "AX", description := "descA" }] := by
  refine ⟨rfl, rfl, rfl⟩

/-- C2 (amended): source-content resolution uses only exact key matching —
each candidate contributes its record's content exactly when the candidate
is an analysis key whose record carries a `content` field, in candidate
order; unmatched candidates contribute nothing and never raise (the loop is
total), with no substring or file-name fallback. -/
theorem claim_C2_amended :
    ∀ (sfs : List String) (analysis : List (String × RFileInfo)),
      source_contents sfs analysis =
        sfs.filterMap (fun sp =>
          match analysisFind analysis sp with
          | some fi =>
            match fi.content with
            | some c =>
              some { path := sp, content := c, description := fi.description.getD "" }
            | none => none
          | none => none) := by
  intro sfs analysis
  induction sfs with
  | nil => rfl
  | cons sp rest ih =>
    unfold source_contents
    cases hf : analysisFind analysis sp with
    | none => simp [List.filterMap_cons, hf, ih]
    | some fi =>
      cases hc : fi.content with
      | none => simp [List.filterMap_cons, hf, hc, ih]
      | some c => simp [List.filterMap_cons, hf, hc, ih]

/-! ## Claim C6: injected-token dependency edges -/

theorem mem_setAdd_of_mem (acc : List String) (x y : String) (h : x ∈ acc) :
    x ∈ setAdd acc y := by
  unfold setAdd
  split
  · exact h
  · exact List.mem_append_left _ h

theorem mem_setAdd_self (acc : List String) (x : String) : x ∈ setAdd acc x := by
  unfold setAdd
  split
  · next hc => simpa using hc
  · exact List.mem_append_right _ (List.mem_singleton.mpr rfl)

theorem injScanFiles_preserves :
    ∀ (lst : List (String × FileRecord)) (tok fp : String) (acc r : List String),
      injScanFiles tok fp lst acc = .ok r → ∀ x ∈ acc, x ∈ r
  | [], tok, fp, acc, r => by
    intro h x hx
    unfold injScanFiles at h
    injection h with h
    rw [← h]
    exact hx
  | (op, oi) :: rest, tok, fp, acc, r => by
    intro h x hx
    unfold injScanFiles at h
    by_cases hop : op = fp
    · rw [if_pos hop] at h
      exact injScanFiles_preserves rest tok fp acc r h x hx
    · rw [if_neg hop] at h
      cases hac : oi.angular_components with
      | asEmptyList =>
        rw [hac] at h
        dsimp only at h
        cases h
      | asDict c =>
        rw [hac] at h
        dsimp only at h
        by_cases hcond : (c.services.contains tok || c.directives.contains tok ||
            c.components.contains tok) = true
        · rw [if_pos hcond] at h
          exact injScanFiles_preserves rest tok fp (setAdd acc op) r h x
            (mem_setAdd_of_mem acc x op hx)
        · rw [if_neg hcond] at h
          exact injScanFiles_preserves rest tok fp acc r h x hx

theorem injScanFiles_adds :
    ∀ (lst : List (String × FileRecord)) (tok fp gp : String) (G : FileRecord)
      (c : AngularComponents) (acc r : List String),
      injScanFiles tok fp lst acc = .ok r →
      (gp, G) ∈ lst → gp ≠ fp →
      G.angular_components = .asDict c →
      (c.services.contains tok || c.directives.contains tok ||
        c.components.contains tok) = true →
      gp ∈ r
  | [], tok, fp, gp, G, c, acc, r => by
    intro _ hmem
    cases hmem
  | (op, oi) :: rest, tok, fp, gp, G, c, acc, r => by
    intro h hmem hne hac hcond
    unfold injScanFiles at h
    rcases List.mem_cons.mp hmem with heq | htail
    · have hop : op = gp := congrArg Prod.fst heq.symm
      have hoi : oi = G := congrArg Prod.snd heq.symm
      subst hop
      subst hoi
      rw [if_neg hne] at h
      rw [hac] at h
      dsimp only at h
      rw [if_pos hcond] at h
      exact injScanFiles_preserves rest tok fp (setAdd acc op) r h op
        (mem_setAdd_self acc op)
    · by_cases hop : op = fp
      · rw [if_pos hop] at h
        exact injScanFiles_adds rest tok fp gp G c acc r h htail hne hac hcond
      · rw [if_neg hop] at h
        cases hac0 : oi.angular_components with
        | asEmptyList =>
          rw [hac0] at h
          dsimp only at h
          cases h
        | asDict c0 =>
          rw [hac0] at h
          dsimp only at h
          by_cases hcond0 : (c0.services.contains tok || c0.directives.contains tok ||
              c0.components.contains tok) = true
          · rw [if_pos hcond0] at h
            exact injScanFiles_adds rest tok fp gp G c (setAdd acc op) r h htail hne hac hcond
          · rw [if_neg hcond0] at h
            exact injScanFiles_adds rest tok fp gp G c acc r h htail hne hac hcond

theorem injLoop_preserves :
    ∀ (injs : List String) (fp : String) (lst : List (String × FileRecord))
      (acc r : List String),
      injLoop fp injs lst acc = .ok r → ∀ x ∈ acc, x ∈ r
  | [], fp, lst, acc, r => by
    intro h x hx
    unfold injLoop at h
    injection h with h
    rw [← h]
    exact hx
  | tok :: rest, fp, lst, acc, r => by
    intro h x hx
    unfold injLoop at h
    cases hscan : injScanFiles tok fp lst acc with
    | error e =>
      rw [hscan] at h
      cases h
    | ok mid =>
      rw [hscan] at h
      exact injLoop_preserves rest fp lst mid r h x
        (injScanFiles_preserves lst tok fp acc mid hscan x hx)

theorem injLoop_adds :
    ∀ (injs : List String) (fp gp tok : String) (lst : List (String × FileRecord))
      (G : FileRecord) (c : AngularComponents) (acc r : List String),
      injLoop fp injs lst acc = .ok r →
      tok ∈ injs →
      (gp, G) ∈ lst → gp ≠ fp →
      G.angular_components = .asDict c →
      (c.services.contains tok || c.directives.contains tok ||
        c.components.contains tok) = true →
      gp ∈ r
  | [], fp, gp, tok, lst, G, c, acc, r => by
    intro _ htok
    cases htok
  | t0 :: rest, fp, gp, tok, lst, G, c, acc, r => by
    intro h htok hmem hne hac hcond
    unfold injLoop at h
    cases hscan : injScanFiles t0 fp lst acc with
    | error e =>
      rw [hscan] at h
      cases h
    | ok mid =>
      rw [hscan] at h
      rcases List.mem_cons.mp htok with heq | htail
      · subst heq
        exact injLoop_preserves rest fp lst mid r h gp
          (injScanFiles_adds lst tok fp gp G c acc mid hscan hmem hne hac hcond)
      · exact injLoop_adds rest fp gp tok lst G c mid r h htail hmem hne hac hcond

/-- C6 (amended): the injected-token rule holds only for files whose
computed file type (text after the last dot of the analysis key) is `js`:
for such a file, whenever its extracted injected-token list contains a
token registered by another file (among that file's extracted service,
directive or component registrations) and the dependency pass returns
normally, the other file appears among its dependencies.  HTML files are
never fed through the injection scan (see the counterexample). -/
theorem claim_C6_amended :
    ∀ (pats : ReOracle) (all : List (String × FileRecord)) (content fp gp tok : String)
      (G : FileRecord) (c : AngularComponents) (deps : List String),
      (gp, G) ∈ all → gp ≠ fp →
      (pySplit fp (".")).getLastD "" = "js" →
      tok ∈ extract_injections pats content →
      G.angular_components = .asDict c →
      (c.services.contains tok || c.directives.contains tok ||
        c.components.contains tok) = true →
      find_dependencies pats content fp all = .ok deps →
      gp ∈ deps := by
  intro pats all content fp gp tok G c deps hmem hne hjs htok hac hcond hfind
  unfold find_dependencies at hfind
  rw [hjs] at hfind
  rw [if_pos rfl] at hfind
  exact injLoop_adds (extract_injections pats content) fp gp tok all G c _ deps
    hfind htok hmem hne hac hcond

/-- C6 (amended, witness): in the two-file fixture, `consumer.js` (a `js`
file whose content shows the injected token `data`) gets the edge to
`app.module.js`, which registers the `data` service. -/
theorem claim_C6_amended_witness :
    "app.module.js" ∈ (["app.module.js"] : List String) :=
  claim_C6_amended cPats c6wAnalysis consumerContent ("consumer.js") ("app.module.js")
    ("data") recModule (extract_angular_components cPats moduleContent ("js"))
    (["app.module.js"])
    (List.mem_cons_self _ _)
    (by decide)
    (by decide)
    (by decide)
    rfl
    (by decide)
    rfl

/-- C6 (counterexample): an HTML view whose content exhibits an
injection-shaped token list does not get the edge.  In the two-file fixture
the view's extracted token list is `["data"]` and `app.module.js` registers
the `data` service, yet `_find_dependencies` on `view.html` returns `[]`
(HTML files never run the injection scan), so the claimed edge is absent. -/
theorem claim_C6_counterexample :
    ("data" ∈ extract_injections cPats viewContent) ∧
    recModule.angular_components =
      .asDict (extract_angular_components cPats moduleContent ("js")) ∧
    ((extract_angular_components cPats moduleContent ("js")).services.contains ("data")
      = true) ∧
    find_dependencies cPats viewContent ("view.html") c6Analysis = .ok [] ∧
    ¬ ("app.module.js" ∈ ([] : List String)) := by
  refine ⟨by decide, rfl, by decide, rfl, by decide⟩

/-! ## Claim C7: read-failure isolation -/

/-- C7 (code-bug evaluation): a read failure in one file aborts dependency
analysis for the others.  In the fixture, `broken.js` failed to read and is
represented with empty content, an error note — and `angular_components`
set to the empty *list* by the exception branch of `_extract_file_info`;
`consumer.js` extracts the injected token `data`, and its injection scan
then calls `.get` on that list, raising `AttributeError`
(`.error ()` here), which propagates out of the unguarded dependency loop
of `analyze_project` and aborts the whole analysis. -/
theorem claim_C7_read_failure_aborts :
    recBroken.content = "" ∧
    recBroken.error = some ("Permission denied") ∧
    recBroken.angular_components = .asEmptyList ∧
    extract_injections cPats consumerContent = ["data"] ∧
    annotate_dependencies cPats c7Records = .error () := by
  refine ⟨rfl, rfl, rfl, by decide, rfl⟩

/-! ## Claims C3 and C4: structure-planning inference calls and parse failures -/

theorem genComponentStructure_calls (env : GenEnv) (c v : TInfo) :
    (genComponentStructure env c v).fst = [componentPrompt c v] :=
  rfl

theorem genServiceStructure_calls (env : GenEnv) (s : TInfo) :
    (genServiceStructure env s).fst = [servicePrompt s] :=
  rfl

theorem processPairs_calls :
    ∀ (env : GenEnv) (prs : List (TInfo × TInfo)) (comps pages : List Val)
      (calls : List String),
      (processPairs env prs comps pages calls).snd.snd.length = calls.length + prs.length
  | env, [], comps, pages, calls => by
    simp [processPairs]
  | env, (c, v) :: rest, comps, pages, calls => by
    unfold processPairs
    cases hres : (genComponentStructure env c v).snd with
    | none =>
      dsimp only
      rw [hres]
      dsimp only
      rw [processPairs_calls env rest comps pages _]
      rw [genComponentStructure_calls]
      simp [List.length_append]
      omega
    | some cs =>
      dsimp only
      rw [hres]
      dsimp only
      by_cases ht : (!pyTruthy cs) = true
      · rw [if_pos ht]
        rw [processPairs_calls env rest comps pages _]
        rw [genComponentStructure_calls]
        simp [List.length_append]
        omega
      · rw [if_neg ht]
        by_cases hp : is_likely_page c v = true
        · rw [if_pos hp]
          rw [processPairs_calls env rest comps _ _]
          rw [genComponentStructure_calls]
          simp [List.length_append]
          omega
        · rw [if_neg hp]
          rw [processPairs_calls env rest _ pages _]
          rw [genComponentStructure_calls]
          simp [List.length_append]
          omega

theorem processServices_calls :
    ∀ (env : GenEnv) (svcs : List TInfo) (hooks contexts acc : List Val)
      (calls : List String),
      (processServices env svcs hooks contexts acc calls).snd.snd.snd.length =
        calls.length + svcs.length
  | env, [], hooks, contexts, acc, calls => by
    simp [processServices]
  | env, s :: rest, hooks, contexts, acc, calls => by
    unfold processServices
    cases hres : (genServiceStructure env s).snd with
    | none =>
      dsimp only
      rw [hres]
      dsimp only
      rw [processServices_calls env rest hooks contexts acc _]
      rw [genServiceStructure_calls]
      simp [List.length_append]
      omega
    | some ss =>
      dsimp only
      rw [hres]
      dsimp only
      by_cases ht : (!pyTruthy ss) = true
      · rw [if_pos ht]
        rw [processServices_calls env rest hooks contexts acc _]
        rw [genServiceStructure_calls]
        simp [List.length_append]
        omega
      · rw [if_neg ht]
        cases ss with
        | vdict d =>
          cases hmt : vdictGet d ("migrationType") with
          | none =>
            dsimp only
            rw [hmt]
            dsimp only
            rw [processServices_calls env rest hooks contexts acc _]
            rw [genServiceStructure_calls]
            simp [List.length_append]
            omega
          | some mv =>
            dsimp only
            rw [hmt]
            dsimp only
            by_cases hh : valEqStr mv ("hook") = true
            · rw [if_pos hh]
              rw [processServices_calls env rest _ contexts acc _]
              rw [genServiceStructure_calls]
              simp [List.length_append]
              omega
            · rw [if_neg hh]
              by_cases hc : valEqStr mv ("context") = true
              · rw [if_pos hc]
                rw [processServices_calls env rest hooks _ acc _]
                rw [genServiceStructure_calls]
                simp [List.length_append]
                omega
              · rw [if_neg hc]
                rw [processServices_calls env rest hooks contexts _ _]
                rw [genServiceStructure_calls]
                simp [List.length_append]
                omega
        | vnull =>
          rw [processServices_calls env rest hooks contexts acc _]
          rw [genServiceStructure_calls]
          simp [List.length_append]
          omega
        | vbool b =>
          rw [processServices_calls env rest hooks contexts acc _]
          rw [genServiceStructure_calls]
          simp [List.length_append]
          omega
        | vint n =>
          rw [processServices_calls env rest hooks contexts acc _]
          rw [genServiceStructure_calls]
          simp [List.length_append]
          omega
        | vstr s0 =>
          rw [processServices_calls env rest hooks contexts acc _]
          rw [genServiceStructure_calls]
          simp [List.length_append]
          omega
        | vlist l =>
          rw [processServices_calls env rest hooks contexts acc _]
          rw [genServiceStructure_calls]
          simp [List.length_append]
          omega

theorem genRoutingStructure_calls (env : GenEnv) (pages : List Val) :
    (genRoutingStructure env pages).fst =
      [routingPrompt (env.jsonDumps (.vlist (listToVList pages)))] :=
  rfl

/-- C3 (amended): the structure-planning run issues one inference call per
identified controller-view pair, one per identified service, plus one for
routing — `pairs + services + 1` in total, a per-item fan-out rather than a
single synthesis call (and hence more than one call whenever any pair or
service is identified). -/
theorem claim_C3_amended :
    ∀ (env : GenEnv) (project_id : String) (analysis : List (String × TInfo))
      (generated_at analysis_file : String),
      (generate_migration_structure env project_id analysis
          generated_at analysis_file).snd.length =
        (identify_controller_view_pairs analysis).length +
          (identify_services analysis).length + 1 := by
  intro env pid analysis ga af
  unfold generate_migration_structure
  dsimp only
  cases hm : routingRoutesLen
      (match (genRoutingStructure env
          (processPairs env (identify_controller_view_pairs analysis) [] [] []).snd.fst).snd with
        | some rv => if pyTruthy rv then rv else default_routing
        | none => default_routing) with
  | none =>
    dsimp only
    rw [genRoutingStructure_calls, List.length_append, processServices_calls,
      processPairs_calls]
    simp
  | some n =>
    dsimp only
    rw [genRoutingStructure_calls, List.length_append, processServices_calls,
      processPairs_calls]
    simp

/-- C3 (counterexample): the structure-planning stage does not issue exactly
one inference call.  On a two-file analysis with one controller-view pair
and no services, the run issues two calls (one for the pair, one for
routing). -/
theorem claim_C3_counterexample :
    (generate_migration_structure envUnparseable ("pid") c3Analysis ("t0") ("af")).snd.length
      = 2 ∧
    (identify_controller_view_pairs c3Analysis).length = 1 ∧
    (2 : Nat) ≠ 1 := by
  refine ⟨rfl, rfl, by decide⟩

theorem genComponentStructure_none (env : GenEnv)
    (h : ∀ s : String, env.jsonLoads s = none) (c v : TInfo) :
    (genComponentStructure env c v).snd = none := by
  unfold genComponentStructure
  dsimp only
  rw [h]

theorem genServiceStructure_none (env : GenEnv)
    (h : ∀ s : String, env.jsonLoads s = none) (s : TInfo) :
    (genServiceStructure env s).snd = none := by
  unfold genServiceStructure
  dsimp only
  rw [h]

theorem processPairs_none (env : GenEnv) (h : ∀ s : String, env.jsonLoads s = none) :
    ∀ (prs : List (TInfo × TInfo)) (comps pages : List Val) (calls : List String),
      processPairs env prs comps pages calls =
        (comps, pages, calls ++ prs.map (fun pr => componentPrompt pr.fst pr.snd))
  | [], comps, pages, calls => by
    simp [processPairs]
  | (c, v) :: rest, comps, pages, calls => by
    unfold processPairs
    dsimp only
    rw [genComponentStructure_none env h c v]
    dsimp only
    rw [processPairs_none env h rest comps pages _]
    rw [genComponentStructure_calls]
    simp

theorem processServices_none (env : GenEnv) (h : ∀ s : String, env.jsonLoads s = none) :
    ∀ (svcs : List TInfo) (hooks contexts acc : List Val) (calls : List String),
      processServices env svcs hooks contexts acc calls =
        (hooks, contexts, acc, calls ++ svcs.map servicePrompt)
  | [], hooks, contexts, acc, calls => by
    simp [processServices]
  | s :: rest, hooks, contexts, acc, calls => by
    unfold processServices
    dsimp only
    rw [genServiceStructure_none env h s]
    dsimp only
    rw [processServices_none env h rest hooks contexts acc _]
    rw [genServiceStructure_calls]
    simp

/-- C4 (amended): at structure-planning scope a reply that fails JSON
extraction/parsing is recoverable per item, not fatal: the per-item helper
returns `None`, the item is skipped, routing keeps its default, and the run
completes normally with an empty structure — no typed `StructureParseError`
exists anywhere in the module.  Stated for every run in which all replies
fail to parse. -/
theorem claim_C4_amended :
    ∀ (env : GenEnv) (project_id : String) (analysis : List (String × TInfo))
      (generated_at analysis_file : String),
      (∀ s : String, env.jsonLoads s = none) →
      (generate_migration_structure env project_id analysis
          generated_at analysis_file).fst =
        .ok { project_id := project_id, components := [], pages := [], hooks := [],
              services := [], contexts := [], routing := default_routing,
              metadata := { generated_at := generated_at, analysis_file := analysis_file,
                            source_files := analysis.map (fun e => e.fst) },
              statistics := { total_components := 0, total_pages := 0, total_hooks := 0,
                              total_services := 0, total_contexts := 0,
                              total_routes := 0 } } := by
  intro env pid analysis ga af h
  unfold generate_migration_structure
  dsimp only
  rw [processPairs_none env h]
  dsimp only
  rw [processServices_none env h]
  dsimp only
  unfold genRoutingStructure
  dsimp only
  rw [h]
  dsimp only
  rfl

/-- C4 (amended, witness): the concrete two-file analysis run, with every
reply unparseable, completes with the empty structure. -/
theorem claim_C4_amended_witness :
    (generate_migration_structure envUnparseable ("pid") c3Analysis ("t0") ("af")).fst =
      .ok { project_id := "pid", components := [], pages := [], hooks := [],
            services := [], contexts := [], routing := default_routing,
            metadata := { generated_at := "t0", analysis_file := "af",
                          source_files := ["loginController.js", "login.html"] },
            statistics := { total_components := 0, total_pages := 0, total_hooks := 0,
                            total_services := 0, total_contexts := 0,
                            total_routes := 0 } } :=
  claim_C4_amended envUnparseable ("pid") c3Analysis ("t0") ("af") (fun _ => rfl)

/-- C4 (counterexample): when no reply yields valid JSON, no typed error is
raised and the run does not abort: the concrete run below, whose JSON
parses all fail, returns a normal (ok) structure with the failed items
skipped — contradicting the claim that a `StructureParseError` aborts the
run. -/
theorem claim_C4_counterexample :
    envUnparseable.jsonLoads ("\x7b") = none ∧
    (generate_migration_structure envUnparseable ("pid") c3Analysis ("t0") ("af")).fst =
      .ok { project_id := "pid", components := [], pages := [], hooks := [],
            services := [], contexts := [], routing := default_routing,
            metadata := { generated_at := "t0", analysis_file := "af",
                          source_files := ["loginController.js", "login.html"] },
            statistics := { total_components := 0, total_pages := 0, total_hooks := 0,
                            total_services := 0, total_contexts := 0,
                            total_routes := 0 } } := by
  refine ⟨rfl, rfl⟩

/-! ## Claim C9: target structures require analyses -/

theorem countP_updateTargetRow (pid pid' : String) (sdata : VDict) (l : List TargetRow) :
    (updateTargetRow pid sdata l).countP (fun r => r.row_project_id == pid') =
      l.countP (fun r => r.row_project_id == pid') := by
  induction l with
  | nil => rfl
  | cons r t ih =>
    unfold updateTargetRow
    by_cases hr : r.row_project_id = pid
    · rw [if_pos hr]
      simp [List.countP_cons]
    · rw [if_neg hr]
      simp [List.countP_cons, ih]

theorem countP_updateAnalysisRow (pid pid' : String) (adata : VDict)
    (l : List AnalysisRow) :
    (updateAnalysisRow pid adata l).countP (fun r => r.row_project_id == pid') =
      l.countP (fun r => r.row_project_id == pid') := by
  induction l with
  | nil => rfl
  | cons r t ih =>
    unfold updateAnalysisRow
    by_cases hr : r.row_project_id = pid
    · rw [if_pos hr]
      simp [List.countP_cons]
    · rw [if_neg hr]
      simp [List.countP_cons, ih]

theorem countP_eraseTargetRow_self (pid : String) (l : List TargetRow) :
    (eraseTargetRow pid l).countP (fun r => r.row_project_id == pid) =
      l.countP (fun r => r.row_project_id == pid) - 1 := by
  induction l with
  | nil => simp [eraseTargetRow]
  | cons r t ih =>
    unfold eraseTargetRow
    by_cases hr : r.row_project_id = pid
    · rw [if_pos hr]
      simp [List.countP_cons, hr]
    · rw [if_neg hr]
      have hb : (r.row_project_id == pid) = false := by
        simp [hr]
      simp [List.countP_cons, hb, ih]

theorem countP_eraseAnalysisRow_self (pid : String) (l : List AnalysisRow) :
    (eraseAnalysisRow pid l).countP (fun r => r.row_project_id == pid) =
      l.countP (fun r => r.row_project_id == pid) - 1 := by
  induction l with
  | nil => simp [eraseAnalysisRow]
  | cons r t ih =>
    unfold eraseAnalysisRow
    by_cases hr : r.row_project_id = pid
    · rw [if_pos hr]
      simp [List.countP_cons, hr]
    · rw [if_neg hr]
      have hb : (r.row_project_id == pid) = false := by
        simp [hr]
      simp [List.countP_cons, hb, ih]

theorem countP_eraseTargetRow_other (pid pid' : String) (h : pid' ≠ pid)
    (l : List TargetRow) :
    (eraseTargetRow pid l).countP (fun r => r.row_project_id == pid') =
      l.countP (fun r => r.row_project_id == pid') := by
  induction l with
  | nil => rfl
  | cons r t ih =>
    unfold eraseTargetRow
    by_cases hr : r.row_project_id = pid
    · rw [if_pos hr]
      have hb : (r.row_project_id == pid') = false := by
        rw [hr]
        simp
        intro he
        exact h he.symm
      simp [List.countP_cons, hb]
    · rw [if_neg hr]
      simp [List.countP_cons, ih]

theorem countP_eraseAnalysisRow_other (pid pid' : String) (h : pid' ≠ pid)
    (l : List AnalysisRow) :
    (eraseAnalysisRow pid l).countP (fun r => r.row_project_id == pid') =
      l.countP (fun r => r.row_project_id == pid') := by
  induction l with
  | nil => rfl
  | cons r t ih =>
    unfold eraseAnalysisRow
    by_cases hr : r.row_project_id = pid
    · rw [if_pos hr]
      have hb : (r.row_project_id == pid') = false := by
        rw [hr]
        simp
        intro he
        exact h he.symm
      simp [List.countP_cons, hb]
    · rw [if_neg hr]
      simp [List.countP_cons, ih]

theorem countP_zero_of_findTarget_none (db : MigDB) (pid : String)
    (h : findTargetRow db pid = none) :
    db.structures.countP (fun r => r.row_project_id == pid) = 0 := by
  rw [List.countP_eq_zero]
  intro a ha
  have := List.find?_eq_none.mp h a ha
  simpa using this

theorem countP_pos_of_findAnalysis_some (db : MigDB) (pid : String) (a : AnalysisRow)
    (h : findAnalysisRow db pid = some a) :
    1 ≤ db.analyses.countP (fun r => r.row_project_id == pid) := by
  have hm := List.mem_of_find?_eq_some h
  have hp := List.find?_some h
  have : 0 < db.analyses.countP (fun r => r.row_project_id == pid) :=
    List.countP_pos_iff.mpr ⟨a, hm, hp⟩
  omega

theorem dbStep_inv (db : MigDB)
    (hInv : ∀ pid : String,
      db.structures.countP (fun r => r.row_project_id == pid) ≤
        db.analyses.countP (fun r => r.row_project_id == pid)) (op : DBOp) :
    ∀ pid : String,
      (dbStep db op).structures.countP (fun r => r.row_project_id == pid) ≤
        (dbStep db op).analyses.countP (fun r => r.row_project_id == pid) := by
  intro pid
  cases op with
  | getA q => exact hInv pid
  | getT q => exact hInv pid
  | hasT q => exact hInv pid
  | saveA pid0 adata =>
    unfold dbStep save_analysis
    dsimp only
    by_cases hg : (decide (pid0 = "") || vdictIsEmpty adata) = true
    · rw [if_pos hg]
      exact hInv pid
    · rw [if_neg hg]
      cases hf : findAnalysisRow db pid0 with
      | some a =>
        dsimp only
        rw [countP_updateAnalysisRow]
        exact hInv pid
      | none =>
        dsimp only
        rw [List.countP_append]
        have := hInv pid
        omega
  | saveT pid0 sdata instr =>
    unfold dbStep save_target_structure
    dsimp only
    by_cases hg : (decide (pid0 = "") || vdictIsEmpty sdata) = true
    · rw [if_pos hg]
      exact hInv pid
    · rw [if_neg hg]
      cases hf : findAnalysisRow db pid0 with
      | none =>
        dsimp only
        exact hInv pid
      | some a =>
        dsimp only
        cases ht : findTargetRow db pid0 with
        | some s =>
          dsimp only
          rw [countP_updateTargetRow]
          exact hInv pid
        | none =>
          dsimp only
          rw [List.countP_append]
          by_cases hpp : pid = pid0
          · subst hpp
            have h0 := countP_zero_of_findTarget_none db pid ht
            have h1 := countP_pos_of_findAnalysis_some db pid a hf
            simp [h0, List.countP_cons]
            exact ⟨a, List.mem_of_find?_eq_some hf, by simpa using List.find?_some hf⟩
          · have hb : ((TargetRow.mk pid0 sdata instr).row_project_id == pid) = false := by
              simp
              intro he
              exact hpp he.symm
            simp [hb]
            exact hInv pid
  | del pid0 =>
    unfold dbStep delete_project_data
    by_cases hpp : pid = pid0
    · subst hpp
      dsimp only
      rw [countP_eraseTargetRow_self, countP_eraseAnalysisRow_self]
      have := hInv pid
      omega
    · dsimp only
      rw [countP_eraseTargetRow_other pid0 pid hpp, countP_eraseAnalysisRow_other pid0 pid hpp]
      exact hInv pid

theorem dbFoldl_inv :
    ∀ (ops : List DBOp) (db : MigDB),
      (∀ pid : String,
        db.structures.countP (fun r => r.row_project_id == pid) ≤
          db.analyses.countP (fun r => r.row_project_id == pid)) →
      ∀ pid : String,
        (ops.foldl dbStep db).structures.countP (fun r => r.row_project_id == pid) ≤
          (ops.foldl dbStep db).analyses.countP (fun r => r.row_project_id == pid)
  | [], db, hInv => hInv
  | op :: rest, db, hInv => by
    rw [List.foldl_cons]
    exact dbFoldl_inv rest (dbStep db op) (dbStep_inv db hInv op)

/-- C9: `save_target_structure` stores nothing and returns `None` when the
project id is empty, the structure payload is empty, or no analysis row
exists for the project id; consequently, after every sequence of service
calls from the empty database, every stored target structure has a stored
analysis with the same project id. -/
theorem claim_C9_structure_requires_analysis :
    (∀ (db : MigDB) (pid : String) (sdata : VDict) (instr : String),
        pid = "" ∨ vdictIsEmpty sdata = true ∨ findAnalysisRow db pid = none →
        save_target_structure db pid sdata instr = (none, db)) ∧
    ∀ (ops : List DBOp) (s : TargetRow), s ∈ (dbRun ops).structures →
      ∃ a ∈ (dbRun ops).analyses, a.row_project_id = s.row_project_id := by
  constructor
  · intro db pid sdata instr hdisj
    unfold save_target_structure
    by_cases hg : (decide (pid = "") || vdictIsEmpty sdata) = true
    · rw [if_pos hg]
    · rw [if_neg hg]
      have h3 : findAnalysisRow db pid = none := by
        rcases hdisj with h1 | h2 | h3
        · exfalso
          apply hg
          simp [h1]
        · exfalso
          apply hg
          simp [h2]
        · exact h3
      rw [h3]
  · intro ops s hmem
    have hInv := dbFoldl_inv ops emptyDB (fun pid => Nat.le_refl 0) s.row_project_id
    have hpos : 0 < (dbRun ops).structures.countP
        (fun r => r.row_project_id == s.row_project_id) :=
      List.countP_pos_iff.mpr ⟨s, hmem, by simp⟩
    have hpos2 : 0 < (dbRun ops).analyses.countP
        (fun r => r.row_project_id == s.row_project_id) := by
      have := hInv
      unfold dbRun at hpos ⊢
      omega
    obtain ⟨a, hma, hpa⟩ := List.countP_pos_iff.mp hpos2
    exact ⟨a, hma, by simpa using hpa⟩

/-- C9 (witness): on the empty database the save is refused, and after a
save-analysis/save-structure pair the stored structure has its analysis. -/
theorem claim_C9_witness :
    save_target_structure emptyDB ("p") sampleDict ("") = (none, emptyDB) ∧
    ∃ a ∈ (dbRun [DBOp.saveA ("p") sampleDict, DBOp.saveT ("p") sampleDict ("")]).analyses,
      a.row_project_id =
        ({ row_project_id := "p", structure_data := sampleDict,
           instructions := "" } : TargetRow).row_project_id := by
  constructor
  · exact claim_C9_structure_requires_analysis.1 emptyDB ("p") sampleDict ("")
      (Or.inr (Or.inr rfl))
  · apply claim_C9_structure_requires_analysis.2
    have h : (dbRun [DBOp.saveA ("p") sampleDict, DBOp.saveT ("p") sampleDict ("")]).structures =
        [{ row_project_id := "p", structure_data := sampleDict, instructions := "" }] := rfl
    rw [h]
    exact List.mem_singleton.mpr rfl

/-! ## Claim C10: quick-convert input validation -/

/-- C10: `CodeConverter.convert` raises `ValueError` before any inference
call for every whitespace-only `angular_code` and for every empty
`file_types` list (in that checking order), and for all other inputs issues
exactly one inference call and returns that reply's content.  Quantified
over the prompt builder and the agent, so it holds in particular for
`get_specialized_prompt` and the configured agent. -/
theorem claim_C10_convert_guards :
    ∀ (get_specialized_prompt : List String → String → String)
      (agent : String → AgentReply) (code : String) (types : List String),
      (pyStrip code = "" →
        convert get_specialized_prompt agent code types =
          (.error ("angular_code field is required"), [])) ∧
      (pyStrip code ≠ "" → types = [] →
        convert get_specialized_prompt agent code types =
          (.error ("At least one file type must be selected"), [])) ∧
      (pyStrip code ≠ "" → types ≠ [] →
        convert get_specialized_prompt agent code types =
          (.ok (agent (get_specialized_prompt types code)).content,
            [get_specialized_prompt types code])) := by
  intro gp agent code types
  refine ⟨?_, ?_, ?_⟩
  · intro h1
    unfold convert
    rw [if_pos h1]
  · intro h1 h2
    unfold convert
    rw [if_neg h1, if_pos h2]
  · intro h1 h2
    unfold convert
    rw [if_neg h1, if_neg h2]

/-- C10 (witness): the three regimes at concrete inputs — whitespace-only
code is refused, an empty type list is refused, and a normal input makes
exactly one call and passes the reply content through. -/
theorem claim_C10_convert_guards_witness :
    convert (fun _ c => c) (fun p => { content := p }) ("   ") (["javascript"]) =
      (.error ("angular_code field is required"), []) ∧
    convert (fun _ c => c) (fun p => { content := p }) ("x") ([]) =
      (.error ("At least one file type must be selected"), []) ∧
    convert (fun _ c => c) (fun p => { content := p }) ("x") (["javascript"]) =
      (.ok ("x"), ["x"]) := by
  refine ⟨?_, ?_, ?_⟩
  · exact (claim_C10_convert_guards (fun _ c => c) (fun p => { content := p })
      ("   ") (["javascript"])).1 (by decide)
  · exact (claim_C10_convert_guards (fun _ c => c) (fun p => { content := p })
      ("x") ([])).2.1 (by decide) rfl
  · exact (claim_C10_convert_guards (fun _ c => c) (fun p => { content := p })
      ("x") (["javascript"])).2.2 (by decide) (by decide)
